import Mathlib

set_option linter.unusedSectionVars false

/-!
Verification of the `set` package: a generic set-algebra library over an
`Interface` contract (Len / Contains / Insert / Remove / Values), with the
four operations Union, Intersection, Difference, SymmetricDifference, a
type-preserving constructor `newSet`, and map-backed conforming types
(`StringSet`, `IntSet`).

Embedding notes.
* A map-backed set (`map[K]bool`) is modelled by the list of its keys; a Go
  map's keys are pairwise distinct, so theorems carry `Nodup` hypotheses
  where needed.  `Values()` yields every key exactly once in an unspecified
  order, so each algebra operation is modelled as a function of the operand
  contents together with explicit iteration orders `svals`/`tvals`, which
  the theorems constrain to be permutations of the corresponding operand.
* `Insert` on a `map[K]bool` (`s[k] = true`) is key-idempotent: it is
  modelled by `mapInsert`, which appends the key only when absent.
* The dynamic (reflection) layer models `reflect.TypeOf`/`reflect.Kind` with
  `GoType`/`GoKind`; `panic` is modelled as `Except.error` carrying the
  panic message, so an operation that panics produces no result value.
* The heap layer models the store explicitly (a list of map contents
  addressed by references) to state the frame property: algebra operations
  allocate a fresh result set and mutate only it.
-/

namespace GoSet

variable {α : Type} [DecidableEq α]

/-- Go `s[k] = true` on a `map[K]bool` represented by its key list: a no-op
on the key set when `k` is already present, otherwise the key is added.
This is the model of `StringSet.Insert` / `IntSet.Insert`. -/
def mapInsert (m : List α) (k : α) : List α :=
  if k ∈ m then m else m ++ [k]

/-- Go `_, ok := m[k]; return ok`: the model of `StringSet.Contains` /
`IntSet.Contains`. -/
def mapContains (m : List α) (k : α) : Bool :=
  decide (k ∈ m)

/-- One loop iteration of the form `if p(v) { r.Insert(v) }` shared by
Intersection, Difference and SymmetricDifference. -/
def insertWhen (p : α → Bool) (r : List α) (v : α) : List α :=
  if p v then mapInsert r v else r

/-- `Union(s, t)`: `r := newSet(s, t, s.Len()+t.Len())`, then insert every
value yielded by `s.Values()` (the order `svals`), then every value yielded
by `t.Values()` (the order `tvals`). -/
def Union (svals tvals : List α) : List α :=
  List.foldl mapInsert (List.foldl mapInsert [] svals) tvals

/-- `Intersection(s, t)`: after `if s.Len() < t.Len() { t, s = s, t }`, the
loop ranges over the Values of the operand left in `s` (the original `t`
when the swap fired, i.e. iteration order `tvals`) and inserts those
elements for which the other operand's `Contains` reports true. -/
def Intersection (s t svals tvals : List α) : List α :=
  if s.length < t.length then
    List.foldl (insertWhen (mapContains s)) [] tvals
  else
    List.foldl (insertWhen (mapContains t)) [] svals

/-- `Difference(s, t)`: iterate `s.Values()` (order `svals`) and insert the
elements `v` with `!t.Contains(v)`. -/
def Difference (t svals : List α) : List α :=
  List.foldl (insertWhen (fun v => !mapContains t v)) [] svals

/-- `SymmetricDifference(s, t)`: a pass over `s.Values()` inserting elements
absent from `t`, then a pass over `t.Values()` inserting elements absent
from `s`. -/
def SymmetricDifference (s t svals tvals : List α) : List α :=
  List.foldl (insertWhen (fun v => !mapContains s v))
    (List.foldl (insertWhen (fun v => !mapContains t v)) [] svals) tvals

/-- `insertWhen` instrumented with a counter that increments once per loop
iteration — i.e. once per `Contains` call made by the loop body of
`Intersection`. -/
def insertWhenCount (p : α → Bool) (rc : List α × Nat) (v : α) : List α × Nat :=
  (if p v then mapInsert rc.1 v else rc.1, rc.2 + 1)

/-- `Intersection(s, t)` instrumented to return, alongside the result, the
number of `Contains` calls performed on the probed operand (exactly one per
iterated element). -/
def IntersectionRun (s t svals tvals : List α) : List α × Nat :=
  if s.length < t.length then
    List.foldl (insertWhenCount (mapContains s)) ([], 0) tvals
  else
    List.foldl (insertWhenCount (mapContains t)) ([], 0) svals

/- ### Heap layer: explicit store, for the frame property.

A `Heap` is the mutable store: the contents (key lists) of all live sets,
addressed by references (indices).  Each algebra operation first allocates a
fresh empty result set (`newSet` builds a brand-new map via
`reflect.MakeMap`), then calls `Insert` only on that result reference; the
operands are only read (`Values`, `Contains`, `Len`). -/

/-- The store of live map-backed sets, addressed by reference. -/
abbrev Heap (α : Type) : Type := List (List α)

/-- Contents of the set referenced by `r` (a Go map dereference). -/
def heapGet (h : Heap α) (r : Nat) : List α :=
  List.getD h r []

/-- Number of live sets; the next allocation returns this reference. -/
def heapSize (h : Heap α) : Nat :=
  List.length h

/-- `reflect.MakeMap`: allocate a brand-new empty set, returning the updated
heap and the fresh reference. -/
def allocSet (h : Heap α) : Heap α × Nat :=
  (h ++ [([] : List α)], heapSize h)

/-- `r.Insert(v)` through the heap: mutate only the set referenced by `r`. -/
def heapInsert (h : Heap α) (r : Nat) (v : α) : Heap α :=
  List.set h r (mapInsert (heapGet h r) v)

/-- `Union(s, t)` acting on the heap: allocate the result, then insert the
iterated values of both operands into it. -/
def UnionH (h : Heap α) (svals tvals : List α) : Heap α × Nat :=
  let ar := allocSet h
  let h1 := List.foldl (fun hh v => heapInsert hh ar.2 v) ar.1 svals
  (List.foldl (fun hh v => heapInsert hh ar.2 v) h1 tvals, ar.2)

/-- `Intersection(s, t)` acting on the heap: allocate the result, swap so
that the longer operand is iterated, probe the other via `Contains` reading
the current heap, and insert only into the fresh result. -/
def IntersectionH (h : Heap α) (s t : Nat) (svals tvals : List α) : Heap α × Nat :=
  let ar := allocSet h
  if (heapGet h s).length < (heapGet h t).length then
    (List.foldl
      (fun hh v => if mapContains (heapGet hh s) v then heapInsert hh ar.2 v else hh)
      ar.1 tvals, ar.2)
  else
    (List.foldl
      (fun hh v => if mapContains (heapGet hh t) v then heapInsert hh ar.2 v else hh)
      ar.1 svals, ar.2)

/-- `Difference(s, t)` acting on the heap. -/
def DifferenceH (h : Heap α) (t : Nat) (svals : List α) : Heap α × Nat :=
  let ar := allocSet h
  (List.foldl
    (fun hh v => if mapContains (heapGet hh t) v then hh else heapInsert hh ar.2 v)
    ar.1 svals, ar.2)

/-- `SymmetricDifference(s, t)` acting on the heap: two passes, one over each
operand, inserting only into the fresh result. -/
def SymmetricDifferenceH (h : Heap α) (s t : Nat) (svals tvals : List α) : Heap α × Nat :=
  let ar := allocSet h
  let h1 := List.foldl
    (fun hh v => if mapContains (heapGet hh t) v then hh else heapInsert hh ar.2 v)
    ar.1 svals
  (List.foldl
    (fun hh v => if mapContains (heapGet hh s) v then hh else heapInsert hh ar.2 v)
    h1 tvals, ar.2)

/- ### Dynamic layer: `reflect` type dispatch and `newSet`. -/

/-- The `reflect.Kind` values relevant to `newSet`'s switch: `Map`, `Slice`
and `Struct` are the supported storage strategies; the remaining
constructors are representatives of the kinds caught by the `default`
branch. -/
inductive GoKind : Type where
  | map : GoKind
  | slice : GoKind
  | struct : GoKind
  | ptr : GoKind
  | chan : GoKind
  | func : GoKind
  | string : GoKind
  | int : GoKind
deriving DecidableEq, Repr

/-- A concrete Go type (`reflect.Type`): identity is nominal, and the type
exposes its `Kind`.  Two sets are of the same concrete variant exactly when
their `GoType`s are equal. -/
structure GoType : Type where
  name : String
  kind : GoKind
deriving DecidableEq, Repr

/-- A value satisfying `set.Interface`, as the algebra functions see it: its
runtime concrete type (`reflect.TypeOf`) plus its contents. -/
structure DynSet (α : Type) : Type where
  type : GoType
  elems : List α

/-- `s.Len()` on a dynamic set. -/
def dynLen (s : DynSet α) : Nat :=
  s.elems.length

/-- `s.Contains(v)` on a dynamic set. -/
def dynContains (s : DynSet α) (v : α) : Bool :=
  mapContains s.elems v

/-- `r.Insert(v)` on a dynamic set: mutates the contents, never the concrete
type. -/
def dynInsert (r : DynSet α) (v : α) : DynSet α :=
  ⟨r.type, mapInsert r.elems v⟩

/-- `newSet(s, t, capacity)`: panic with `"Set types %s and %s do not match"`
when the two `reflect.TypeOf`s differ; otherwise dispatch on the kind —
`Map` (`reflect.MakeMap`), `Slice` (`reflect.MakeSlice` with the capacity
hint) and `Struct` (`reflect.Zero`) all produce a new empty instance of the
identical concrete type, and any other kind panics with
`"Unsupported set type: %s"`.  Panics are modelled as `Except.error` holding
the panic message. -/
def newSet (s t : DynSet α) ( _capacity : Nat) : Except String (DynSet α) :=
  if s.type ≠ t.type then
    Except.error ("Set types " ++ s.type.name ++ " and " ++ t.type.name ++ " do not match")
  else
    match s.type.kind with
    | GoKind.map => Except.ok ⟨s.type, []⟩
    | GoKind.slice => Except.ok ⟨s.type, []⟩
    | GoKind.struct => Except.ok ⟨s.type, []⟩
    | _ => Except.error ("Unsupported set type: " ++ s.type.name)

/-- `Union(s, t)` at the dynamic level: the `newSet` call runs first, so any
panic it raises aborts the operation before a single element is copied. -/
def UnionDyn (s t : DynSet α) (svals tvals : List α) : Except String (DynSet α) :=
  match newSet s t (dynLen s + dynLen t) with
  | Except.error e => Except.error e
  | Except.ok r0 =>
    Except.ok (List.foldl dynInsert (List.foldl dynInsert r0 svals) tvals)

/-- `Intersection(s, t)` at the dynamic level. -/
def IntersectionDyn (s t : DynSet α) (svals tvals : List α) : Except String (DynSet α) :=
  match newSet s t 0 with
  | Except.error e => Except.error e
  | Except.ok r0 =>
    if dynLen s < dynLen t then
      Except.ok (List.foldl (fun r v => if dynContains s v then dynInsert r v else r) r0 tvals)
    else
      Except.ok (List.foldl (fun r v => if dynContains t v then dynInsert r v else r) r0 svals)

/-- `Difference(s, t)` at the dynamic level. -/
def DifferenceDyn (s t : DynSet α) (svals : List α) : Except String (DynSet α) :=
  match newSet s t 0 with
  | Except.error e => Except.error e
  | Except.ok r0 =>
    Except.ok (List.foldl (fun r v => if dynContains t v then r else dynInsert r v) r0 svals)

/-- `SymmetricDifference(s, t)` at the dynamic level. -/
def SymmetricDifferenceDyn (s t : DynSet α) (svals tvals : List α) :
    Except String (DynSet α) :=
  match newSet s t 0 with
  | Except.error e => Except.error e
  | Except.ok r0 =>
    Except.ok (List.foldl (fun r v => if dynContains s v then r else dynInsert r v)
      (List.foldl (fun r v => if dynContains t v then r else dynInsert r v) r0 svals) tvals)

/-- The concrete variant of an operation's outcome: `some` the result's
`reflect.Type` when a result was produced, `none` when the operation
panicked. -/
def resType (e : Except String (DynSet α)) : Option GoType :=
  match e with
  | Except.ok r => some r.type
  | Except.error _ => none

end GoSet

namespace GoSet

variable {α : Type} [DecidableEq α]

/- ### Basic lemmas about the map model -/

theorem mem_mapInsert {m : List α} {k x : α} :
    x ∈ mapInsert m k ↔ x ∈ m ∨ x = k := by
  unfold mapInsert
  by_cases h : k ∈ m
  · simp only [if_pos h]
    constructor
    · exact Or.inl
    · rintro (hx | rfl)
      · exact hx
      · exact h
  · simp [if_neg h]

theorem nodup_mapInsert {m : List α} (hm : m.Nodup) (k : α) :
    (mapInsert m k).Nodup := by
  unfold mapInsert
  by_cases h : k ∈ m
  · simpa [if_pos h]
  · simp only [if_neg h]
    simpa [List.nodup_append, hm] using h

theorem mem_foldl_mapInsert {l r : List α} {x : α} :
    x ∈ List.foldl mapInsert r l ↔ x ∈ r ∨ x ∈ l := by
  induction l generalizing r with
  | nil => simp
  | cons a l ih =>
    rw [List.foldl_cons, ih, mem_mapInsert, List.mem_cons]
    tauto

theorem nodup_foldl_mapInsert {l r : List α} (hr : r.Nodup) :
    (List.foldl mapInsert r l).Nodup := by
  induction l generalizing r with
  | nil => simpa
  | cons a l ih => exact ih (nodup_mapInsert hr a)

theorem mem_foldl_insertWhen {p : α → Bool} {l r : List α} {x : α} :
    x ∈ List.foldl (insertWhen p) r l ↔ x ∈ r ∨ (x ∈ l ∧ p x = true) := by
  induction l generalizing r with
  | nil => simp
  | cons a l ih =>
    simp only [List.foldl_cons, ih, List.mem_cons]
    unfold insertWhen
    by_cases hpa : p a = true
    · simp only [if_pos hpa, mem_mapInsert]
      constructor
      · rintro ((hx | rfl) | ⟨hx, hp⟩)
        · exact Or.inl hx
        · exact Or.inr ⟨Or.inl rfl, hpa⟩
        · exact Or.inr ⟨Or.inr hx, hp⟩
      · rintro (hx | ⟨(rfl | hx), hp⟩)
        · exact Or.inl (Or.inl hx)
        · exact Or.inl (Or.inr rfl)
        · exact Or.inr ⟨hx, hp⟩
    · simp only [if_neg hpa]
      constructor
      · rintro (hx | ⟨hx, hp⟩)
        · exact Or.inl hx
        · exact Or.inr ⟨Or.inr hx, hp⟩
      · rintro (hx | ⟨(rfl | hx), hp⟩)
        · exact Or.inl hx
        · exact absurd hp hpa
        · exact Or.inr ⟨hx, hp⟩

theorem nodup_foldl_insertWhen {p : α → Bool} {l r : List α} (hr : r.Nodup) :
    (List.foldl (insertWhen p) r l).Nodup := by
  induction l generalizing r with
  | nil => simpa
  | cons a l ih =>
    refine ih ?_
    unfold insertWhen
    by_cases hpa : p a = true
    · simpa [if_pos hpa] using nodup_mapInsert hr a
    · simpa [if_neg hpa]

theorem mapContains_iff {m : List α} {x : α} :
    mapContains m x = true ↔ x ∈ m := by
  simp [mapContains]

/- ### Membership characterization of the four operations -/

theorem mem_Union_iff {s t svals tvals : List α} (hs : svals.Perm s)
    (ht : tvals.Perm t) {x : α} :
    x ∈ Union svals tvals ↔ x ∈ s ∨ x ∈ t := by
  unfold Union
  rw [mem_foldl_mapInsert, mem_foldl_mapInsert]
  simp [hs.mem_iff, ht.mem_iff]

theorem nodup_Union (svals tvals : List α) : (Union svals tvals).Nodup :=
  nodup_foldl_mapInsert (nodup_foldl_mapInsert List.nodup_nil)

theorem mem_Intersection_iff {s t svals tvals : List α} (hs : svals.Perm s)
    (ht : tvals.Perm t) {x : α} :
    x ∈ Intersection s t svals tvals ↔ x ∈ s ∧ x ∈ t := by
  unfold Intersection
  by_cases hlt : s.length < t.length
  · rw [if_pos hlt, mem_foldl_insertWhen]
    simp only [List.not_mem_nil, false_or, ht.mem_iff, mapContains_iff]
    tauto
  · rw [if_neg hlt, mem_foldl_insertWhen]
    simp only [List.not_mem_nil, false_or, hs.mem_iff, mapContains_iff]

theorem nodup_Intersection (s t svals tvals : List α) :
    (Intersection s t svals tvals).Nodup := by
  unfold Intersection
  split
  · exact nodup_foldl_insertWhen List.nodup_nil
  · exact nodup_foldl_insertWhen List.nodup_nil

theorem mapContains_eq_false_iff {m : List α} {x : α} :
    mapContains m x = false ↔ x ∉ m := by
  simp [mapContains]

theorem mem_Difference_iff {s t svals : List α} (hs : svals.Perm s) {x : α} :
    x ∈ Difference t svals ↔ x ∈ s ∧ x ∉ t := by
  unfold Difference
  rw [mem_foldl_insertWhen]
  simp only [List.not_mem_nil, false_or, Bool.not_eq_true', mapContains_eq_false_iff,
    hs.mem_iff]

theorem nodup_Difference (t svals : List α) : (Difference t svals).Nodup :=
  nodup_foldl_insertWhen List.nodup_nil

theorem mem_SymmetricDifference_iff {s t svals tvals : List α}
    (hs : svals.Perm s) (ht : tvals.Perm t) {x : α} :
    x ∈ SymmetricDifference s t svals tvals ↔
      (x ∈ s ∧ x ∉ t) ∨ (x ∈ t ∧ x ∉ s) := by
  unfold SymmetricDifference
  rw [mem_foldl_insertWhen, mem_foldl_insertWhen]
  simp only [List.not_mem_nil, false_or, Bool.not_eq_true', mapContains_eq_false_iff,
    hs.mem_iff, ht.mem_iff]

theorem nodup_SymmetricDifference (s t svals tvals : List α) :
    (SymmetricDifference s t svals tvals).Nodup :=
  nodup_foldl_insertWhen (nodup_foldl_insertWhen List.nodup_nil)

theorem length_eq_of_nodup_of_mem_iff {l1 l2 : List α} (h1 : l1.Nodup)
    (h2 : l2.Nodup) (h : ∀ x, x ∈ l1 ↔ x ∈ l2) : l1.length = l2.length :=
  ((List.perm_ext_iff_of_nodup h1 h2).2 h).length_eq

/- ### The instrumented Intersection -/

theorem foldl_insertWhenCount_snd {p : α → Bool} (l : List α)
    (rc : List α × Nat) :
    (List.foldl (insertWhenCount p) rc l).2 = rc.2 + l.length := by
  induction l generalizing rc with
  | nil => simp
  | cons a l ih =>
    rw [List.foldl_cons, ih]
    simp [insertWhenCount]
    omega

theorem foldl_insertWhenCount_fst {p : α → Bool} (l : List α)
    (rc : List α × Nat) :
    (List.foldl (insertWhenCount p) rc l).1 = List.foldl (insertWhen p) rc.1 l := by
  induction l generalizing rc with
  | nil => rfl
  | cons a l ih =>
    rw [List.foldl_cons, List.foldl_cons, ih]
    rfl

theorem IntersectionRun_fst (s t svals tvals : List α) :
    (IntersectionRun s t svals tvals).1 = Intersection s t svals tvals := by
  unfold IntersectionRun Intersection
  by_cases hlt : s.length < t.length
  · rw [if_pos hlt, if_pos hlt, foldl_insertWhenCount_fst]
  · rw [if_neg hlt, if_neg hlt, foldl_insertWhenCount_fst]

theorem IntersectionRun_snd {s t svals tvals : List α} (hs : svals.Perm s)
    (ht : tvals.Perm t) :
    (IntersectionRun s t svals tvals).2 = max s.length t.length := by
  unfold IntersectionRun
  by_cases hlt : s.length < t.length
  · rw [if_pos hlt, foldl_insertWhenCount_snd, ht.length_eq]
    omega
  · rw [if_neg hlt, foldl_insertWhenCount_snd, hs.length_eq]
    omega

/- ### Heap frame lemmas -/

theorem heapGet_heapInsert_ne {h : Heap α} {r i : Nat} (hne : i ≠ r) (v : α) :
    heapGet (heapInsert h r v) i = heapGet h i := by
  unfold heapGet heapInsert
  by_cases hi : i < h.length
  · rw [List.getD_eq_getElem _ _ (by simpa using hi), List.getD_eq_getElem _ _ hi]
    exact List.getElem_set_ne (Ne.symm hne) _
  · rw [List.getD_eq_default _ _ (by simpa using Nat.le_of_not_lt hi),
      List.getD_eq_default _ _ (Nat.le_of_not_lt hi)]

theorem heapGet_allocSet {h : Heap α} {i : Nat} (hi : i < heapSize h) :
    heapGet (allocSet h).1 i = heapGet h i :=
  List.getD_append _ _ _ _ hi

theorem heapGet_foldl (g : Heap α → α → Heap α) {i : Nat}
    (hg : ∀ hh v, heapGet (g hh v) i = heapGet hh i) (l : List α) (h : Heap α) :
    heapGet (List.foldl g h l) i = heapGet h i := by
  induction l generalizing h with
  | nil => rfl
  | cons a l ih => rw [List.foldl_cons, ih, hg]

theorem UnionH_fst (h : Heap α) (svals tvals : List α) :
    (UnionH h svals tvals).1 =
      List.foldl (fun hh v => heapInsert hh (heapSize h) v)
        (List.foldl (fun hh v => heapInsert hh (heapSize h) v) (allocSet h).1 svals)
        tvals :=
  rfl

theorem UnionH_snd (h : Heap α) (svals tvals : List α) :
    (UnionH h svals tvals).2 = heapSize h :=
  rfl

theorem IntersectionH_fst (h : Heap α) (s t : Nat) (svals tvals : List α) :
    (IntersectionH h s t svals tvals).1 =
      if (heapGet h s).length < (heapGet h t).length then
        List.foldl
          (fun hh v => if mapContains (heapGet hh s) v then heapInsert hh (heapSize h) v else hh)
          (allocSet h).1 tvals
      else
        List.foldl
          (fun hh v => if mapContains (heapGet hh t) v then heapInsert hh (heapSize h) v else hh)
          (allocSet h).1 svals := by
  simp only [IntersectionH]
  split <;> rfl

theorem IntersectionH_snd (h : Heap α) (s t : Nat) (svals tvals : List α) :
    (IntersectionH h s t svals tvals).2 = heapSize h := by
  simp only [IntersectionH]
  split <;> rfl

theorem DifferenceH_fst (h : Heap α) (t : Nat) (svals : List α) :
    (DifferenceH h t svals).1 =
      List.foldl
        (fun hh v => if mapContains (heapGet hh t) v then hh else heapInsert hh (heapSize h) v)
        (allocSet h).1 svals :=
  rfl

theorem DifferenceH_snd (h : Heap α) (t : Nat) (svals : List α) :
    (DifferenceH h t svals).2 = heapSize h :=
  rfl

theorem SymmetricDifferenceH_fst (h : Heap α) (s t : Nat) (svals tvals : List α) :
    (SymmetricDifferenceH h s t svals tvals).1 =
      List.foldl
        (fun hh v => if mapContains (heapGet hh s) v then hh else heapInsert hh (heapSize h) v)
        (List.foldl
          (fun hh v => if mapContains (heapGet hh t) v then hh else heapInsert hh (heapSize h) v)
          (allocSet h).1 svals)
        tvals :=
  rfl

theorem SymmetricDifferenceH_snd (h : Heap α) (s t : Nat) (svals tvals : List α) :
    (SymmetricDifferenceH h s t svals tvals).2 = heapSize h :=
  rfl

theorem UnionH_frame {h : Heap α} {i : Nat} (svals tvals : List α)
    (hi : i < heapSize h) :
    heapGet (UnionH h svals tvals).1 i = heapGet h i := by
  have hne : i ≠ heapSize h := Nat.ne_of_lt hi
  rw [UnionH_fst]
  exact (heapGet_foldl _ (fun hh v => heapGet_heapInsert_ne hne v) tvals _).trans
    ((heapGet_foldl _ (fun hh v => heapGet_heapInsert_ne hne v) svals _).trans
      (heapGet_allocSet hi))

theorem IntersectionH_frame {h : Heap α} {s t i : Nat} (svals tvals : List α)
    (hi : i < heapSize h) :
    heapGet (IntersectionH h s t svals tvals).1 i = heapGet h i := by
  have hne : i ≠ heapSize h := Nat.ne_of_lt hi
  have hg : ∀ (r : Nat) (hh : Heap α) (v : α),
      heapGet (if mapContains (heapGet hh r) v then heapInsert hh (heapSize h) v else hh) i =
        heapGet hh i := by
    intro r hh v
    split
    · exact heapGet_heapInsert_ne hne v
    · rfl
  rw [IntersectionH_fst]
  split
  · exact (heapGet_foldl _ (hg s) tvals _).trans (heapGet_allocSet hi)
  · exact (heapGet_foldl _ (hg t) svals _).trans (heapGet_allocSet hi)

theorem DifferenceH_frame {h : Heap α} {t i : Nat} (svals : List α)
    (hi : i < heapSize h) :
    heapGet (DifferenceH h t svals).1 i = heapGet h i := by
  have hne : i ≠ heapSize h := Nat.ne_of_lt hi
  have hg : ∀ (hh : Heap α) (v : α),
      heapGet (if mapContains (heapGet hh t) v then hh else heapInsert hh (heapSize h) v) i =
        heapGet hh i := by
    intro hh v
    split
    · rfl
    · exact heapGet_heapInsert_ne hne v
  rw [DifferenceH_fst]
  exact (heapGet_foldl _ hg svals _).trans (heapGet_allocSet hi)

theorem SymmetricDifferenceH_frame {h : Heap α} {s t i : Nat}
    (svals tvals : List α) (hi : i < heapSize h) :
    heapGet (SymmetricDifferenceH h s t svals tvals).1 i = heapGet h i := by
  have hne : i ≠ heapSize h := Nat.ne_of_lt hi
  have hg : ∀ (r : Nat) (hh : Heap α) (v : α),
      heapGet (if mapContains (heapGet hh r) v then hh else heapInsert hh (heapSize h) v) i =
        heapGet hh i := by
    intro r hh v
    split
    · rfl
    · exact heapGet_heapInsert_ne hne v
  rw [SymmetricDifferenceH_fst]
  exact (heapGet_foldl _ (hg s) tvals _).trans
    ((heapGet_foldl _ (hg t) svals _).trans (heapGet_allocSet hi))

/- ### The dynamic constructor and type preservation -/

theorem newSet_eq (s t : DynSet α) (capacity : Nat) :
    newSet s t capacity =
      if s.type ≠ t.type then
        Except.error
          ("Set types " ++ s.type.name ++ " and " ++ t.type.name ++ " do not match")
      else if s.type.kind = GoKind.map ∨ s.type.kind = GoKind.slice ∨
          s.type.kind = GoKind.struct then
        Except.ok ⟨s.type, []⟩
      else
        Except.error ("Unsupported set type: " ++ s.type.name) := by
  unfold newSet
  by_cases h : s.type ≠ t.type
  · rw [if_pos h, if_pos h]
  · rw [if_neg h, if_neg h]
    cases hk : s.type.kind <;> simp

theorem newSet_mismatch {s t : DynSet α} (capacity : Nat) (h : s.type ≠ t.type) :
    newSet s t capacity =
      Except.error
        ("Set types " ++ s.type.name ++ " and " ++ t.type.name ++ " do not match") := by
  rw [newSet_eq, if_pos h]

theorem newSet_same_map {s t : DynSet α} (capacity : Nat) (h : s.type = t.type)
    (hk : s.type.kind = GoKind.map) :
    newSet s t capacity = Except.ok ⟨s.type, []⟩ := by
  rw [newSet_eq, if_neg (by simp [h]), if_pos (Or.inl hk)]

theorem type_foldl (g : DynSet α → α → DynSet α)
    (hg : ∀ r v, (g r v).type = r.type) (l : List α) (r : DynSet α) :
    (List.foldl g r l).type = r.type := by
  induction l generalizing r with
  | nil => rfl
  | cons a l ih => rw [List.foldl_cons, ih, hg]

/- ### Claim theorems -/

/-- Claim C3: for same-variant operands, `Union(s, t)` contains an element
exactly when `s` or `t` contains it; consequently `Union(s,t)` and
`Union(t,s)` contain identical element sets, and duplicates collapse — the
result has no duplicate keys, so each shared element appears once. -/
theorem Union_spec {s t svals tvals : List α} (hs : svals.Perm s)
    (ht : tvals.Perm t) :
    (∀ x, x ∈ Union svals tvals ↔ x ∈ s ∨ x ∈ t) ∧
    (Union svals tvals).Nodup ∧
    (∀ x, x ∈ Union svals tvals ↔ x ∈ Union tvals svals) := by
  refine ⟨fun x => mem_Union_iff hs ht, nodup_Union _ _, fun x => ?_⟩
  rw [mem_Union_iff hs ht, mem_Union_iff ht hs]
  tauto

/-- Witness for `Union_spec` at s = \x7b1, 2\x7d, t = \x7b2, 3\x7d with shuffled
iteration orders, evaluated at the shared element 2. -/
theorem Union_spec_witness :
    ((2 : Nat) ∈ Union [1, 2] [2, 3] ↔ (2 : Nat) ∈ [2, 1] ∨ (2 : Nat) ∈ [3, 2]) ∧
    (Union [1, 2] [2, 3] : List Nat).Nodup :=
  ⟨(Union_spec (by decide) (by decide)).1 2,
   (Union_spec (s := [2, 1]) (t := [3, 2]) (by decide) (by decide)).2.1⟩

/-- Claim C4: for same-variant operands, `Intersection(s, t)` contains an
element exactly when both `s` and `t` contain it, and the element set of the
result does not depend on which operand is the smaller one. -/
theorem Intersection_spec {s t svals tvals : List α} (hs : svals.Perm s)
    (ht : tvals.Perm t) :
    (∀ x, x ∈ Intersection s t svals tvals ↔ x ∈ s ∧ x ∈ t) ∧
    (∀ x, x ∈ Intersection s t svals tvals ↔ x ∈ Intersection t s tvals svals) := by
  refine ⟨fun x => mem_Intersection_iff hs ht, fun x => ?_⟩
  rw [mem_Intersection_iff hs ht, mem_Intersection_iff ht hs]
  tauto

/-- Witness for `Intersection_spec` with operands of different sizes, so the
internal swap fires in one orientation and not the other, evaluated at the
shared element 1. -/
theorem Intersection_spec_witness :
    ((1 : Nat) ∈ Intersection [1] [1, 2] [1] [2, 1] ↔
      (1 : Nat) ∈ [1] ∧ (1 : Nat) ∈ [1, 2]) ∧
    ((1 : Nat) ∈ Intersection [1] [1, 2] [1] [2, 1] ↔
      (1 : Nat) ∈ Intersection [1, 2] [1] [2, 1] [1]) :=
  ⟨(Intersection_spec (by decide) (by decide)).1 1,
   (Intersection_spec (by decide) (by decide)).2 1⟩

/-- Claim C5 as stated is false on the code: with s = {1} (Len 1) and
t = {2, 3} (Len 2), the swap `t, s = s, t` leaves the LARGER operand in
`s`, so the loop iterates it and performs 2 Contains calls — not
min(Len(s), Len(t)) = 1. -/
theorem Intersection_probe_count_counterexample :
    (IntersectionRun [1] [2, 3] [1] [2, 3] : List Nat × Nat).2 = 2 ∧
    min (List.length ([1] : List Nat)) (List.length ([2, 3] : List Nat)) = 1 := by
  constructor
  · rfl
  · rfl

/-- Claim C5 amended: `Intersection(s, t)` iterates (via Values) the operand
with the larger — or, on ties, the first — Len and probes the other operand,
so `Contains` is invoked exactly once per element of the iterated operand:
max(Len(s), Len(t)) calls in total.  The instrumented run returns the same
result set as the uninstrumented operation. -/
theorem Intersection_probe_count {s t svals tvals : List α} (hs : svals.Perm s)
    (ht : tvals.Perm t) :
    (IntersectionRun s t svals tvals).2 = max s.length t.length ∧
    (IntersectionRun s t svals tvals).1 = Intersection s t svals tvals :=
  ⟨IntersectionRun_snd hs ht, IntersectionRun_fst s t svals tvals⟩

/-- Witness for `Intersection_probe_count`: 1-element versus 2-element
operands yield 2 Contains calls. -/
theorem Intersection_probe_count_witness :
    (IntersectionRun [1] [2, 3] [1] [3, 2] : List Nat × Nat).2 =
      max (List.length ([1] : List Nat)) (List.length ([2, 3] : List Nat)) ∧
    (IntersectionRun [1] [2, 3] [1] [3, 2] : List Nat × Nat).1 =
      Intersection [1] [2, 3] [1] [3, 2] :=
  Intersection_probe_count (by decide) (by decide)

/-- Claim C6: for same-variant operands, `Difference(s, t)` contains an
element exactly when `s` contains it and `t` does not; Difference is not
symmetric — with s = {1} and t = ∅ the two orientations differ. -/
theorem Difference_spec {s t svals : List α} (hs : svals.Perm s) :
    (∀ x, x ∈ Difference t svals ↔ x ∈ s ∧ x ∉ t) ∧
    ((1 : Nat) ∈ Difference ([] : List Nat) [1] ∧
      (1 : Nat) ∉ Difference [1] ([] : List Nat)) := by
  refine ⟨fun x => mem_Difference_iff hs, by decide, by decide⟩

/-- Witness for `Difference_spec` at s = \x7b1, 2\x7d, t = \x7b2\x7d, evaluated at
element 1. -/
theorem Difference_spec_witness :
    ((1 : Nat) ∈ Difference [2] [1, 2] ↔ (1 : Nat) ∈ [2, 1] ∧ (1 : Nat) ∉ [2]) ∧
    ((1 : Nat) ∈ Difference ([] : List Nat) [1] ∧
      (1 : Nat) ∉ Difference [1] ([] : List Nat)) :=
  ⟨(Difference_spec (s := [2, 1]) (by decide)).1 1,
   (@Difference_spec Nat _ [2, 1] [2] [1, 2] (by decide)).2⟩

/-- Claim C7: for same-variant operands, `SymmetricDifference(s, t)` contains
exactly the elements in exactly one of `s`, `t`, and its element set equals
that of `Union(Difference(s,t), Difference(t,s))`; the definition itself is
the two-pass computation, one pass over each operand. -/
theorem SymmetricDifference_spec {s t svals tvals : List α} (hs : svals.Perm s)
    (ht : tvals.Perm t) :
    ∀ x, (x ∈ SymmetricDifference s t svals tvals ↔
          (x ∈ s ∧ x ∉ t) ∨ (x ∈ t ∧ x ∉ s)) ∧
         (x ∈ SymmetricDifference s t svals tvals ↔
          x ∈ Union (Difference t svals) (Difference s tvals)) := by
  intro x
  have h1 := mem_SymmetricDifference_iff hs ht (x := x)
  refine ⟨h1, ?_⟩
  rw [h1, mem_Union_iff (List.Perm.refl (Difference t svals))
      (List.Perm.refl (Difference s tvals)),
    mem_Difference_iff hs, mem_Difference_iff ht]

/-- Witness for `SymmetricDifference_spec` at s = \x7b1, 2\x7d, t = \x7b2, 3\x7d,
evaluated at element 1 (in s only). -/
theorem SymmetricDifference_spec_witness :
    ((1 : Nat) ∈ SymmetricDifference [1, 2] [2, 3] [2, 1] [3, 2] ↔
      ((1 : Nat) ∈ [1, 2] ∧ (1 : Nat) ∉ [2, 3]) ∨
        ((1 : Nat) ∈ [2, 3] ∧ (1 : Nat) ∉ [1, 2])) ∧
    ((1 : Nat) ∈ SymmetricDifference [1, 2] [2, 3] [2, 1] [3, 2] ↔
      (1 : Nat) ∈ Union (Difference [2, 3] [2, 1]) (Difference [1, 2] [3, 2])) :=
  SymmetricDifference_spec (by decide) (by decide) 1

/-- Claim C8: no algebra operation mutates its operands.  On the explicit
heap, after each of the four operations the contents stored at both operand
references are unchanged (hence their `Len()` and every `Contains()` answer
are unchanged), even when the two operands are the same reference, and the
returned reference is distinct from both operands — the result shares no
storage with the inputs. -/
theorem algebra_no_mutation {h : Heap α} {s t : Nat} (svals tvals : List α)
    (hs : s < heapSize h) (ht : t < heapSize h) :
    (heapGet (UnionH h svals tvals).1 s = heapGet h s ∧
     heapGet (UnionH h svals tvals).1 t = heapGet h t ∧
     (UnionH h svals tvals).2 ≠ s ∧ (UnionH h svals tvals).2 ≠ t) ∧
    (heapGet (IntersectionH h s t svals tvals).1 s = heapGet h s ∧
     heapGet (IntersectionH h s t svals tvals).1 t = heapGet h t ∧
     (IntersectionH h s t svals tvals).2 ≠ s ∧
     (IntersectionH h s t svals tvals).2 ≠ t) ∧
    (heapGet (DifferenceH h t svals).1 s = heapGet h s ∧
     heapGet (DifferenceH h t svals).1 t = heapGet h t ∧
     (DifferenceH h t svals).2 ≠ s ∧ (DifferenceH h t svals).2 ≠ t) ∧
    (heapGet (SymmetricDifferenceH h s t svals tvals).1 s = heapGet h s ∧
     heapGet (SymmetricDifferenceH h s t svals tvals).1 t = heapGet h t ∧
     (SymmetricDifferenceH h s t svals tvals).2 ≠ s ∧
     (SymmetricDifferenceH h s t svals tvals).2 ≠ t) := by
  refine ⟨⟨UnionH_frame _ _ hs, UnionH_frame _ _ ht, ?_, ?_⟩,
    ⟨IntersectionH_frame _ _ hs, IntersectionH_frame _ _ ht, ?_, ?_⟩,
    ⟨DifferenceH_frame _ hs, DifferenceH_frame _ ht, ?_, ?_⟩,
    ⟨SymmetricDifferenceH_frame _ _ hs, SymmetricDifferenceH_frame _ _ ht, ?_, ?_⟩⟩
  · rw [UnionH_snd]
    omega
  · rw [UnionH_snd]
    omega
  · rw [IntersectionH_snd]
    omega
  · rw [IntersectionH_snd]
    omega
  · rw [DifferenceH_snd]
    omega
  · rw [DifferenceH_snd]
    omega
  · rw [SymmetricDifferenceH_snd]
    omega
  · rw [SymmetricDifferenceH_snd]
    omega

/-- Witness for `algebra_no_mutation` on a two-set heap. -/
theorem algebra_no_mutation_witness :
    heapGet (UnionH [[1], [2]] [1] [2]).1 0 = heapGet ([[1], [2]] : Heap Nat) 0 ∧
    (SymmetricDifferenceH ([[1], [2]] : Heap Nat) 0 1 [1] [2]).2 ≠ 0 :=
  ⟨(@algebra_no_mutation Nat _ [[1], [2]] 0 1 [1] [2] (by decide) (by decide)).1.1,
   (@algebra_no_mutation Nat _ [[1], [2]] 0 1 [1] [2] (by decide) (by decide)).2.2.2.2.2.1⟩

/-- Claim C10: despite the unspecified iteration order of `Values`, each of
the four operations is extensionally deterministic: two executions that see
the operand elements in different orders produce results of identical
`Len()` and identical `Contains()` outcome for every element. -/
theorem algebra_deterministic {s t svals tvals svals2 tvals2 : List α}
    (hs : svals.Perm s) (ht : tvals.Perm t)
    (hs2 : svals2.Perm s) (ht2 : tvals2.Perm t) :
    ((Union svals tvals).length = (Union svals2 tvals2).length ∧
     ∀ x, x ∈ Union svals tvals ↔ x ∈ Union svals2 tvals2) ∧
    ((Intersection s t svals tvals).length =
        (Intersection s t svals2 tvals2).length ∧
     ∀ x, x ∈ Intersection s t svals tvals ↔ x ∈ Intersection s t svals2 tvals2) ∧
    ((Difference t svals).length = (Difference t svals2).length ∧
     ∀ x, x ∈ Difference t svals ↔ x ∈ Difference t svals2) ∧
    ((SymmetricDifference s t svals tvals).length =
        (SymmetricDifference s t svals2 tvals2).length ∧
     ∀ x, x ∈ SymmetricDifference s t svals tvals ↔
       x ∈ SymmetricDifference s t svals2 tvals2) := by
  have hU : ∀ x, x ∈ Union svals tvals ↔ x ∈ Union svals2 tvals2 := fun x => by
    rw [mem_Union_iff hs ht, mem_Union_iff hs2 ht2]
  have hI : ∀ x, x ∈ Intersection s t svals tvals ↔
      x ∈ Intersection s t svals2 tvals2 := fun x => by
    rw [mem_Intersection_iff hs ht, mem_Intersection_iff hs2 ht2]
  have hD : ∀ x, x ∈ Difference t svals ↔ x ∈ Difference t svals2 := fun x => by
    rw [mem_Difference_iff hs, mem_Difference_iff hs2]
  have hS : ∀ x, x ∈ SymmetricDifference s t svals tvals ↔
      x ∈ SymmetricDifference s t svals2 tvals2 := fun x => by
    rw [mem_SymmetricDifference_iff hs ht, mem_SymmetricDifference_iff hs2 ht2]
  exact ⟨⟨length_eq_of_nodup_of_mem_iff (nodup_Union _ _) (nodup_Union _ _) hU, hU⟩,
    ⟨length_eq_of_nodup_of_mem_iff (nodup_Intersection _ _ _ _)
      (nodup_Intersection _ _ _ _) hI, hI⟩,
    ⟨length_eq_of_nodup_of_mem_iff (nodup_Difference _ _) (nodup_Difference _ _) hD, hD⟩,
    ⟨length_eq_of_nodup_of_mem_iff (nodup_SymmetricDifference _ _ _ _)
      (nodup_SymmetricDifference _ _ _ _) hS, hS⟩⟩

/-- Witness for `algebra_deterministic` with two genuinely different
iteration orders of s = \x7b1, 2\x7d, t = \x7b2, 3\x7d. -/
theorem algebra_deterministic_witness :
    (Union [1, 2] [2, 3] : List Nat).length = (Union [2, 1] [3, 2]).length ∧
    ((1 : Nat) ∈ SymmetricDifference [1, 2] [2, 3] [1, 2] [2, 3] ↔
      (1 : Nat) ∈ SymmetricDifference [1, 2] [2, 3] [2, 1] [3, 2]) :=
  ⟨(algebra_deterministic (s := [1, 2]) (t := [2, 3]) (by decide) (by decide)
      (by decide) (by decide)).1.1,
   (algebra_deterministic (s := [1, 2]) (t := [2, 3]) (by decide) (by decide)
      (by decide) (by decide)).2.2.2.2 1⟩

/-- Claim C1: calling any of the four algebra operations on operands whose
concrete variants differ fails in the `newSet` constructor with the
VariantMismatch panic naming the two types; the failure happens before any
element is copied, so the operation produces an error and no (partial)
result set. -/
theorem variantMismatch_fatal {s t : DynSet α} (svals tvals : List α)
    (h : s.type ≠ t.type) :
    UnionDyn s t svals tvals = Except.error
      ("Set types " ++ s.type.name ++ " and " ++ t.type.name ++ " do not match") ∧
    IntersectionDyn s t svals tvals = Except.error
      ("Set types " ++ s.type.name ++ " and " ++ t.type.name ++ " do not match") ∧
    DifferenceDyn s t svals = Except.error
      ("Set types " ++ s.type.name ++ " and " ++ t.type.name ++ " do not match") ∧
    SymmetricDifferenceDyn s t svals tvals = Except.error
      ("Set types " ++ s.type.name ++ " and " ++ t.type.name ++ " do not match") := by
  have hn : ∀ c, newSet s t c = Except.error
      ("Set types " ++ s.type.name ++ " and " ++ t.type.name ++ " do not match") :=
    fun c => newSet_mismatch c h
  refine ⟨?_, ?_, ?_, ?_⟩
  · unfold UnionDyn
    rw [hn]
  · unfold IntersectionDyn
    rw [hn]
  · unfold DifferenceDyn
    rw [hn]
  · unfold SymmetricDifferenceDyn
    rw [hn]

/-- Witness for `variantMismatch_fatal`: a string-variant against an
int-variant operand. -/
theorem variantMismatch_fatal_witness :
    UnionDyn (DynSet.mk (GoType.mk "set.StringSet" GoKind.map) ["a"])
        (DynSet.mk (GoType.mk "set.IntSet" GoKind.map) ["b"]) ["a"] ["b"] =
      Except.error "Set types set.StringSet and set.IntSet do not match" :=
  (variantMismatch_fatal ["a"] ["b"] (by decide)).1

/-- Claim C2: for same-variant (map-backed) operands, each of the four
operations succeeds and its result carries the same concrete variant as both
inputs. -/
theorem result_variant_eq_input_variant {s t : DynSet α} (svals tvals : List α)
    (h : s.type = t.type)
    (hk : s.type.kind = GoKind.map ∨ s.type.kind = GoKind.slice ∨
      s.type.kind = GoKind.struct) :
    resType (UnionDyn s t svals tvals) = some s.type ∧
    resType (IntersectionDyn s t svals tvals) = some s.type ∧
    resType (DifferenceDyn s t svals) = some s.type ∧
    resType (SymmetricDifferenceDyn s t svals tvals) = some s.type ∧
    (some s.type : Option GoType) = some t.type := by
  have hn : ∀ c, newSet s t c = Except.ok ⟨s.type, []⟩ := fun c => by
    rw [newSet_eq, if_neg (by simp [h]), if_pos hk]
  have hins : ∀ (r : DynSet α) (v : α), (dynInsert r v).type = r.type :=
    fun r v => rfl
  have hif : ∀ (c : α → Bool) (r : DynSet α) (v : α),
      (if c v then dynInsert r v else r).type = r.type := by
    intro c r v
    split <;> rfl
  have hskip : ∀ (c : α → Bool) (r : DynSet α) (v : α),
      (if c v then r else dynInsert r v).type = r.type := by
    intro c r v
    split <;> rfl
  refine ⟨?_, ?_, ?_, ?_, by rw [h]⟩
  · unfold UnionDyn
    rw [hn]
    show some (List.foldl dynInsert (List.foldl dynInsert ⟨s.type, []⟩ svals) tvals).type =
      some s.type
    rw [type_foldl _ hins, type_foldl _ hins]
  · simp only [IntersectionDyn, hn]
    split
    · show some (List.foldl (fun r v => if dynContains s v then dynInsert r v else r)
        ⟨s.type, []⟩ tvals).type = some s.type
      rw [type_foldl _ (hif (dynContains s))]
    · show some (List.foldl (fun r v => if dynContains t v then dynInsert r v else r)
        ⟨s.type, []⟩ svals).type = some s.type
      rw [type_foldl _ (hif (dynContains t))]
  · unfold DifferenceDyn
    rw [hn]
    show some (List.foldl (fun r v => if dynContains t v then r else dynInsert r v)
      ⟨s.type, []⟩ svals).type = some s.type
    rw [type_foldl _ (hskip (dynContains t))]
  · unfold SymmetricDifferenceDyn
    rw [hn]
    show some (List.foldl (fun r v => if dynContains s v then r else dynInsert r v)
      (List.foldl (fun r v => if dynContains t v then r else dynInsert r v)
        ⟨s.type, []⟩ svals) tvals).type = some s.type
    rw [type_foldl _ (hskip (dynContains s)), type_foldl _ (hskip (dynContains t))]

/-- Witness for `result_variant_eq_input_variant` on two StringSets. -/
theorem result_variant_eq_input_variant_witness :
    resType (UnionDyn (DynSet.mk (GoType.mk "set.StringSet" GoKind.map) ["a"])
        (DynSet.mk (GoType.mk "set.StringSet" GoKind.map) ["b"]) ["a"] ["b"]) =
      some (GoType.mk "set.StringSet" GoKind.map) :=
  (@result_variant_eq_input_variant String _
    (DynSet.mk (GoType.mk "set.StringSet" GoKind.map) ["a"])
    (DynSet.mk (GoType.mk "set.StringSet" GoKind.map) ["b"])
    ["a"] ["b"] rfl (Or.inl rfl)).1

/-- Claim C9: with operands of equal concrete type, the constructor succeeds
exactly for the kinds backed by key-presence maps, slices and structs — in
each case returning a new empty instance of the identical concrete type —
and fails with the UnsupportedVariant panic naming the type for any other
kind. -/
theorem newSet_supported_variants {s t : DynSet α} (capacity : Nat)
    (h : s.type = t.type) :
    ((s.type.kind = GoKind.map ∨ s.type.kind = GoKind.slice ∨
        s.type.kind = GoKind.struct) →
      newSet s t capacity = Except.ok ⟨s.type, ([] : List α)⟩) ∧
    (¬(s.type.kind = GoKind.map ∨ s.type.kind = GoKind.slice ∨
        s.type.kind = GoKind.struct) →
      newSet s t capacity = Except.error ("Unsupported set type: " ++ s.type.name)) := by
  constructor
  · intro hk
    rw [newSet_eq, if_neg (by simp [h]), if_pos hk]
  · intro hk
    rw [newSet_eq, if_neg (by simp [h]), if_neg hk]

/-- Witness for `newSet_supported_variants`: a map-backed variant succeeds
with an empty result of the same type; a channel-backed variant panics. -/
theorem newSet_supported_variants_witness :
    newSet (DynSet.mk (GoType.mk "set.StringSet" GoKind.map) ["a"])
        (DynSet.mk (GoType.mk "set.StringSet" GoKind.map) ["b"]) 2 =
      Except.ok (DynSet.mk (GoType.mk "set.StringSet" GoKind.map) ([] : List String)) ∧
    newSet (DynSet.mk (GoType.mk "chanSet" GoKind.chan) ([] : List String))
        (DynSet.mk (GoType.mk "chanSet" GoKind.chan) []) 0 =
      Except.error "Unsupported set type: chanSet" :=
  ⟨(@newSet_supported_variants String _
      (DynSet.mk (GoType.mk "set.StringSet" GoKind.map) ["a"])
      (DynSet.mk (GoType.mk "set.StringSet" GoKind.map) ["b"]) 2 rfl).1 (Or.inl rfl),
   (@newSet_supported_variants String _
      (DynSet.mk (GoType.mk "chanSet" GoKind.chan) [])
      (DynSet.mk (GoType.mk "chanSet" GoKind.chan) []) 0 rfl).2 (by decide)⟩

end GoSet
